import Mathlib

/-!
Shallow embedding of the goissues exporter (main.go) and proofs about its
classification engine.

The program scans Gerrit change lists to build an index of GitHub issue
numbers that have an active, non-rejected linked CL, then walks every GitHub
issue and computes a workflow `state`, a timing bucket `when`, and a joined
assignee string, emitting one CSV record per retained issue.

The embedding below mirrors the source: label and milestone dispatch is by
identifier constants; the label pass is a left fold over the ordered label
list carrying the mutable (state, when) pair; the change-link index is a
fold over the CL list accumulating issue numbers.
-/

set_option autoImplicit false

namespace Goissues

/-! ### GitHub label IDs (constants from main.go) -/

def go2ID : Nat := 150880249

def documentationID : Nat := 150880209

def earlyInCycleID : Nat := 626114143

def featureRequestID : Nat := 373540105

def helpWantedID : Nat := 150880243

def needsDecisionID : Nat := 373401956

def needsFixID : Nat := 373399998

def needsInvestigationID : Nat := 373402289

def performanceID : Nat := 150880191

def proposalID : Nat := 236419512

def proposalHoldID : Nat := 477156222

def releaseBlockerID : Nat := 626114820

def soonID : Nat := 936464699

def testingID : Nat := 150880205

def toolSpeedID : Nat := 358732225

def waitingForInfoID : Nat := 357033853

def frozenDueToAgeID : Nat := 398069301

/-! ### GitHub milestone numbers (constants from main.go) -/

def unplannedMilestone : Nat := 6

def unreleasedMilestone : Nat := 22

def proposalMilestone : Nat := 30

def go2Milestone : Nat := 72

def gccgoMilestone : Nat := 23

def gollvmMilestone : Nat := 100

/-! ### Data model -/

/-- A GitHub milestone: its number and display title. -/
structure Milestone where
  number : Nat
  title : String
deriving DecidableEq, Repr

/-- A reference from a Gerrit CL to a GitHub issue. `repoMatch` models the
comparison `ref.Repo == repo` against the one target repository. -/
structure IssueRef where
  repoMatch : Bool
  number : Int
deriving DecidableEq, Repr

/-- One Gerrit meta commit (review decision); `codeReview` is the list of
votes in the Code-Review category, i.e. `meta.LabelVotes()["Code-Review"]`. -/
structure GerritMeta where
  codeReview : List Int
deriving DecidableEq, Repr

/-- A Gerrit change list as consumed by the index builder. -/
structure GerritCL where
  status : String
  gitHubIssueRefs : List IssueRef
  metas : List GerritMeta
deriving DecidableEq, Repr

/-- A GitHub issue as consumed by the classifier. `labels` is the ordered
label-ID sequence iterated by the label pass; `assignees` the login list. -/
structure GitHubIssue where
  number : Int
  notExist : Bool
  pullRequest : Bool
  closed : Bool
  locked : Bool
  milestone : Option Milestone
  labels : List Nat
  assignees : List String
  updated : String
  title : String
deriving DecidableEq, Repr

/-- `i.HasLabelID(id)`: whether the issue carries the label with that ID. -/
def hasLabelID (i : GitHubIssue) (id : Nat) : Bool :=
  i.labels.contains id

/-! ### Change-link index (the ForeachOpenCL body) -/

/-- The issue numbers a single CL contributes to the change-link index:
skip if merged or abandoned; skip if no ref targets the repo; skip if the
most recent meta carries a Code-Review vote of -2; otherwise every in-repo
ref number. -/
def clEntries (cl : GerritCL) : List Int :=
  if cl.status = "merged" ∨ cl.status = "abandoned" then []
  else if ! cl.gitHubIssueRefs.any (fun r => r.repoMatch) then []
  else
    match cl.metas.getLast? with
    | some meta =>
      if meta.codeReview.any (fun v => v == -2) then []
      else cl.gitHubIssueRefs.filterMap
        (fun r => if r.repoMatch then some r.number else none)
    | none => cl.gitHubIssueRefs.filterMap
        (fun r => if r.repoMatch then some r.number else none)

/-- The `issueHasCL` map built by folding over all open CLs. -/
def buildIndex (cls : List GerritCL) : List Int :=
  cls.foldl (fun acc cl => acc ++ clEntries cl) []

/-- `issueHasCL[n]`: membership of issue number `n` in the change-link
index. -/
def issueHasCL (cls : List GerritCL) (n : Int) : Bool :=
  (buildIndex cls).contains n

/-! ### Classifier -/

/-- The initial `state` from the closed/locked switch. -/
def stateInit (i : GitHubIssue) : String :=
  if i.closed then "closed"
  else if i.locked then "locked"
  else ""

/-- The initial `when` from the milestone switch. -/
def whenInit (i : GitHubIssue) : String :=
  match i.milestone with
  | none => ""
  | some m =>
    if m.number = unplannedMilestone then
      if hasLabelID i helpWantedID then "help" else "unplanned"
    else if m.number = unreleasedMilestone then "unreleased"
    else if m.number = proposalMilestone then "proposal"
    else if m.number = go2Milestone then "go2"
    else if m.number = gccgoMilestone then "gccgo"
    else if m.number = gollvmMilestone then "gollvm"
    else ""

/-- One step of the label pass: the body of `for _, l := range i.Labels`,
dispatching on the label ID and updating the (state, when) pair. -/
def applyLabel (i : GitHubIssue) (sw : String × String) (lid : Nat) :
    String × String :=
  if lid = waitingForInfoID ∨ lid = proposalHoldID then
    if sw.1 = "" ∨ sw.1 = "deciding" then ("waiting", sw.2) else sw
  else if lid = needsDecisionID then
    if sw.1 = "" then ("deciding", sw.2) else sw
  else if lid = soonID then (sw.1, "soon")
  else if lid = releaseBlockerID then
    if sw.2 = "" ∨ sw.2 = "early" ∨ sw.2 = "feature" ∨ sw.2 = "performance" ∨
        sw.2 = "test" ∨ sw.2 = "doc" then
      match i.milestone with
      | some m => (sw.1, m.title)
      | none => (sw.1, "release")
    else sw
  else if lid = earlyInCycleID then
    if sw.2 = "" ∨ sw.2 = "feature" ∨ sw.2 = "performance" ∨ sw.2 = "test" ∨
        sw.2 = "doc" then (sw.1, "early")
    else sw
  else if lid = featureRequestID then
    if sw.2 = "" ∨ sw.2 = "performance" ∨ sw.2 = "test" ∨ sw.2 = "doc" then
      (sw.1, "feature")
    else sw
  else if lid = performanceID ∨ lid = toolSpeedID then
    if sw.2 = "" ∨ sw.2 = "test" ∨ sw.2 = "doc" then (sw.1, "performance")
    else sw
  else if lid = testingID then
    if sw.2 = "" ∨ sw.2 = "doc" then (sw.1, "test") else sw
  else if lid = documentationID then
    if sw.2 = "" then (sw.1, "doc") else sw
  else sw

/-- The whole label pass: fold `applyLabel` over the ordered label list. -/
def labelPass (i : GitHubIssue) (sw : String × String) : String × String :=
  i.labels.foldl (applyLabel i) sw

/-- The classifier: closed/locked switch, milestone switch, label pass,
then the final state fallback against the change-link index. Returns the
(state, when) pair. -/
def classify (cls : List GerritCL) (i : GitHubIssue) : String × String :=
  let sw := labelPass i (stateInit i, whenInit i)
  (if sw.1 = "" then
     if issueHasCL cls i.number then "pending" else "open"
   else sw.1,
   sw.2)

/-- The assignee aggregation: the strings.Builder loop joining nonempty
logins with commas. -/
def joinWho (logins : List String) : String :=
  logins.foldl
    (fun acc a =>
      if a = "" then acc
      else if acc.length > 0 then acc ++ "," ++ a
      else acc ++ a)
    ""

/-- The inclusion filter at the head of the ForeachIssue body. -/
def includeIssue (i : GitHubIssue) : Bool :=
  !(i.notExist || i.pullRequest || (i.locked && hasLabelID i frozenDueToAgeID))

/-- The CSV record written for one retained issue. -/
def recordOf (cls : List GerritCL) (i : GitHubIssue) : List String :=
  [toString i.number, i.updated, (classify cls i).1, (classify cls i).2,
   joinWho i.assignees, i.title]

/-- The emitter: one record per issue passing the inclusion filter, in
iteration order. -/
def emit (cls : List GerritCL) (issues : List GitHubIssue) :
    List (List String) :=
  issues.filterMap
    (fun i => if includeIssue i then some (recordOf cls i) else none)

/-! ### Lemmas about the change-link index -/

/-- Membership in the filterMap over in-repo refs. -/
lemma mem_refs_filterMap (refs : List IssueRef) (n : Int) :
    n ∈ refs.filterMap (fun r => if r.repoMatch then some r.number else none) ↔
      ∃ r ∈ refs, r.repoMatch = true ∧ r.number = n := by
  simp only [List.mem_filterMap]
  refine exists_congr fun r => and_congr_right fun _ => ?_
  by_cases hb : r.repoMatch <;> simp [hb]

/-- Characterization of the issue numbers one CL contributes. -/
lemma mem_clEntries (cl : GerritCL) (n : Int) :
    n ∈ clEntries cl ↔
      (cl.status ≠ "merged" ∧ cl.status ≠ "abandoned") ∧
      (∃ r ∈ cl.gitHubIssueRefs, r.repoMatch = true ∧ r.number = n) ∧
      (∀ m, cl.metas.getLast? = some m → (-2 : Int) ∉ m.codeReview) := by
  unfold clEntries
  split_ifs with h1 h2
  · simp only [List.not_mem_nil, false_iff]
    rintro ⟨⟨hm, ha⟩, -, -⟩
    rcases h1 with h | h
    exacts [hm h, ha h]
  · simp only [List.not_mem_nil, false_iff]
    rintro ⟨-, ⟨r, hr, hrm, -⟩, -⟩
    simp only [Bool.not_eq_true', List.any_eq_false] at h2
    exact absurd hrm (by simpa using h2 r hr)
  · push_neg at h1
    simp only [Bool.not_eq_true', List.any_eq_false, not_forall] at h2
    cases hL : cl.metas.getLast? with
    | none =>
      simp [hL, mem_refs_filterMap, h1]
    | some meta =>
      by_cases h3 : meta.codeReview.any (fun v => v == -2) = true
      · simp only [hL]
        rw [if_pos h3]
        simp only [List.not_mem_nil, false_iff]
        rintro ⟨-, -, hno⟩
        rcases List.any_eq_true.mp h3 with ⟨v, hv, hveq⟩
        exact hno meta rfl (by rwa [show v = -2 from by simpa using hveq] at hv)
      · simp only [hL]
        rw [if_neg h3]
        rw [mem_refs_filterMap]
        constructor
        · intro h
          refine ⟨h1, h, fun m hm => ?_⟩
          cases hm
          intro hmem
          exact h3 (List.any_eq_true.mpr ⟨-2, hmem, by simp⟩)
        · rintro ⟨-, h, -⟩
          exact h

/-- Folding the append accumulator over the CL list. -/
lemma mem_buildIndex_aux (cls : List GerritCL) :
    ∀ (acc : List Int) (n : Int),
      n ∈ cls.foldl (fun a cl => a ++ clEntries cl) acc ↔
        n ∈ acc ∨ ∃ cl ∈ cls, n ∈ clEntries cl := by
  induction cls with
  | nil => intro acc n; simp [buildIndex]
  | cons c rest ih =>
    intro acc n
    rw [List.foldl_cons, ih]
    simp [List.mem_append, List.exists_mem_cons_iff, or_assoc]

/-- Membership in the change-link index, CL by CL. -/
lemma issueHasCL_iff (cls : List GerritCL) (n : Int) :
    issueHasCL cls n = true ↔ ∃ cl ∈ cls, n ∈ clEntries cl := by
  unfold issueHasCL buildIndex
  rw [List.contains, List.elem_iff, mem_buildIndex_aux]
  simp

/-- C2: an issue number is in the change-link index iff some CL in the list
is neither merged nor abandoned, links that issue within the target repo,
and its most recent review decision (last meta) carries no Code-Review vote
of -2; a CL with no metas contributes all of its in-repo linked issues. -/
theorem changeLinkIndex_mem_iff (cls : List GerritCL) (n : Int) :
    issueHasCL cls n = true ↔
      ∃ cl ∈ cls,
        (cl.status ≠ "merged" ∧ cl.status ≠ "abandoned") ∧
        (∃ r ∈ cl.gitHubIssueRefs, r.repoMatch = true ∧ r.number = n) ∧
        (∀ m, cl.metas.getLast? = some m → (-2 : Int) ∉ m.codeReview) := by
  rw [issueHasCL_iff]
  exact exists_congr fun cl => and_congr_right fun _ => mem_clEntries cl n

/-- C9: a CL that is neither merged nor abandoned and links issue `n` in
the target repo is excluded from contributing by its review scores exactly
when its most recent review decision carries a Code-Review vote equal to
-2; any other votes (earlier decisions arbitrary) leave it contributing. -/
theorem reviewScore_minus_two_excludes (vs : List Int) (n : Int) (s : String)
    (pre : List GerritMeta) (h1 : s ≠ "merged") (h2 : s ≠ "abandoned") :
    issueHasCL [⟨s, [⟨true, n⟩], pre ++ [⟨vs⟩]⟩] n = true ↔ (-2 : Int) ∉ vs := by
  rw [issueHasCL_iff]
  constructor
  · rintro ⟨cl, hcl, hmem⟩
    rcases List.mem_singleton.mp hcl with rfl
    rcases (mem_clEntries _ n).mp hmem with ⟨-, -, hno⟩
    exact hno ⟨vs⟩ (by simp [List.getLast?_concat])
  · intro hv
    refine ⟨_, List.mem_singleton.mpr rfl, (mem_clEntries _ n).mpr ?_⟩
    refine ⟨⟨h1, h2⟩, ⟨⟨true, n⟩, by simp, rfl, rfl⟩, fun m hm => ?_⟩
    simp only [List.getLast?_concat, Option.some.injEq] at hm
    rw [← hm]
    exact hv

/-- Witness for C9: a most-recent decision voting Code-Review -1 after an
earlier +2 does not exclude the CL, so its linked issue is in the index. -/
theorem reviewScore_minus_two_excludes_witness :
    issueHasCL [⟨"new", [⟨true, 7⟩], [⟨[2]⟩] ++ [⟨[-1]⟩]⟩] 7 = true :=
  (reviewScore_minus_two_excludes [-1] 7 "new" [⟨[2]⟩] (by decide) (by decide)).mpr
    (by decide)

/-! ### Lemmas about the state component -/

/-- Projection of the classifier result onto `state`. -/
lemma classify_fst (cls : List GerritCL) (i : GitHubIssue) :
    (classify cls i).1 =
      if (labelPass i (stateInit i, whenInit i)).1 = "" then
        if issueHasCL cls i.number then "pending" else "open"
      else (labelPass i (stateInit i, whenInit i)).1 := rfl

/-- Projection of the classifier result onto `when`. -/
lemma classify_snd (cls : List GerritCL) (i : GitHubIssue) :
    (classify cls i).2 = (labelPass i (stateInit i, whenInit i)).2 := rfl

/-- Ladder rank of a label ID for the `when` priority order. -/
def labelRank (lid : Nat) : Nat :=
  if lid = soonID then 7
  else if lid = releaseBlockerID then 6
  else if lid = earlyInCycleID then 5
  else if lid = featureRequestID then 4
  else if lid = performanceID ∨ lid = toolSpeedID then 3
  else if lid = testingID then 2
  else if lid = documentationID then 1
  else 0

/-- The `when` value produced by each ladder rank (with no milestone). -/
def rankToWhen (r : Nat) : String :=
  if r = 7 then "soon"
  else if r = 6 then "release"
  else if r = 5 then "early"
  else if r = 4 then "feature"
  else if r = 3 then "performance"
  else if r = 2 then "test"
  else if r = 1 then "doc"
  else ""

/-- Dispatch lemma: a label step falls into exactly one of the switch
cases, and in each case it equals the corresponding small update. -/
lemma applyLabel_spec (i : GitHubIssue) (sw : String × String) (lid : Nat) :
    ((lid = waitingForInfoID ∨ lid = proposalHoldID) ∧ labelRank lid = 0 ∧
      applyLabel i sw lid =
        if sw.1 = "" ∨ sw.1 = "deciding" then ("waiting", sw.2) else sw) ∨
    (lid = needsDecisionID ∧ labelRank lid = 0 ∧
      applyLabel i sw lid = if sw.1 = "" then ("deciding", sw.2) else sw) ∨
    (lid = soonID ∧ labelRank lid = 7 ∧
      applyLabel i sw lid = (sw.1, "soon")) ∨
    (lid = releaseBlockerID ∧ labelRank lid = 6 ∧
      applyLabel i sw lid =
        if sw.2 = "" ∨ sw.2 = "early" ∨ sw.2 = "feature" ∨
            sw.2 = "performance" ∨ sw.2 = "test" ∨ sw.2 = "doc" then
          match i.milestone with
          | some m => (sw.1, m.title)
          | none => (sw.1, "release")
        else sw) ∨
    (lid = earlyInCycleID ∧ labelRank lid = 5 ∧
      applyLabel i sw lid =
        if sw.2 = "" ∨ sw.2 = "feature" ∨ sw.2 = "performance" ∨
            sw.2 = "test" ∨ sw.2 = "doc" then (sw.1, "early")
        else sw) ∨
    (lid = featureRequestID ∧ labelRank lid = 4 ∧
      applyLabel i sw lid =
        if sw.2 = "" ∨ sw.2 = "performance" ∨ sw.2 = "test" ∨
            sw.2 = "doc" then (sw.1, "feature")
        else sw) ∨
    ((lid = performanceID ∨ lid = toolSpeedID) ∧ labelRank lid = 3 ∧
      applyLabel i sw lid =
        if sw.2 = "" ∨ sw.2 = "test" ∨ sw.2 = "doc" then (sw.1, "performance")
        else sw) ∨
    (lid = testingID ∧ labelRank lid = 2 ∧
      applyLabel i sw lid =
        if sw.2 = "" ∨ sw.2 = "doc" then (sw.1, "test") else sw) ∨
    (lid = documentationID ∧ labelRank lid = 1 ∧
      applyLabel i sw lid = if sw.2 = "" then (sw.1, "doc") else sw) ∨
    (labelRank lid = 0 ∧ applyLabel i sw lid = sw) := by
  unfold applyLabel
  by_cases c1 : lid = waitingForInfoID ∨ lid = proposalHoldID
  · refine Or.inl ⟨c1, ?_, by rw [if_pos c1]⟩
    rcases c1 with rfl | rfl <;> decide
  · rw [if_neg c1]
    by_cases c2 : lid = needsDecisionID
    · subst c2
      exact Or.inr (Or.inl ⟨rfl, by decide, by rw [if_pos rfl]⟩)
    · rw [if_neg c2]
      by_cases c3 : lid = soonID
      · subst c3
        exact Or.inr (Or.inr (Or.inl ⟨rfl, by decide, by rw [if_pos rfl]⟩))
      · rw [if_neg c3]
        by_cases c4 : lid = releaseBlockerID
        · subst c4
          exact Or.inr (Or.inr (Or.inr (Or.inl
            ⟨rfl, by decide, by rw [if_pos rfl]⟩)))
        · rw [if_neg c4]
          by_cases c5 : lid = earlyInCycleID
          · subst c5
            exact Or.inr (Or.inr (Or.inr (Or.inr (Or.inl
              ⟨rfl, by decide, by rw [if_pos rfl]⟩))))
          · rw [if_neg c5]
            by_cases c6 : lid = featureRequestID
            · subst c6
              exact Or.inr (Or.inr (Or.inr (Or.inr (Or.inr (Or.inl
                ⟨rfl, by decide, by rw [if_pos rfl]⟩)))))
            · rw [if_neg c6]
              by_cases c7 : lid = performanceID ∨ lid = toolSpeedID
              · refine Or.inr (Or.inr (Or.inr (Or.inr (Or.inr (Or.inr
                  (Or.inl ⟨c7, ?_, by rw [if_pos c7]⟩))))))
                rcases c7 with rfl | rfl <;> decide
              · rw [if_neg c7]
                by_cases c8 : lid = testingID
                · subst c8
                  exact Or.inr (Or.inr (Or.inr (Or.inr (Or.inr (Or.inr
                    (Or.inr (Or.inl ⟨rfl, by decide, by rw [if_pos rfl]⟩)))))))
                · rw [if_neg c8]
                  by_cases c9 : lid = documentationID
                  · subst c9
                    exact Or.inr (Or.inr (Or.inr (Or.inr (Or.inr (Or.inr
                      (Or.inr (Or.inr (Or.inl
                        ⟨rfl, by decide, by rw [if_pos rfl]⟩))))))))
                  · rw [if_neg c9]
                    refine Or.inr (Or.inr (Or.inr (Or.inr (Or.inr (Or.inr
                      (Or.inr (Or.inr (Or.inr ⟨?_, rfl⟩))))))))
                    unfold labelRank
                    rw [if_neg c3, if_neg c4, if_neg c5, if_neg c6,
                      if_neg c7, if_neg c8, if_neg c9]

/-- A label step either keeps `state`, raises `""`, or turns `"deciding"`
into `"waiting"`. -/
lemma applyLabel_state_trans (i : GitHubIssue) (s w : String) (lid : Nat) :
    (applyLabel i (s, w) lid).1 = s ∨
    (s = "" ∧ (applyLabel i (s, w) lid).1 ≠ "") ∨
    (s = "deciding" ∧ (applyLabel i (s, w) lid).1 = "waiting") := by
  rcases applyLabel_spec i (s, w) lid with
      ⟨-, -, heq⟩ | ⟨-, -, heq⟩ | ⟨-, -, heq⟩ | ⟨-, -, heq⟩ | ⟨-, -, heq⟩ |
      ⟨-, -, heq⟩ | ⟨-, -, heq⟩ | ⟨-, -, heq⟩ | ⟨-, -, heq⟩ | ⟨-, heq⟩ <;>
    rw [heq]
  · split_ifs with hc
    · rcases hc with h | h
      · exact Or.inr (Or.inl ⟨h, by simp⟩)
      · exact Or.inr (Or.inr ⟨h, rfl⟩)
    · exact Or.inl rfl
  · split_ifs with hc
    · exact Or.inr (Or.inl ⟨hc, by simp⟩)
    · exact Or.inl rfl
  · exact Or.inl rfl
  · split_ifs with hc
    · cases i.milestone <;> exact Or.inl rfl
    · exact Or.inl rfl
  · split_ifs <;> exact Or.inl rfl
  · split_ifs <;> exact Or.inl rfl
  · split_ifs <;> exact Or.inl rfl
  · split_ifs <;> exact Or.inl rfl
  · split_ifs <;> exact Or.inl rfl
  · exact Or.inl rfl

/-- A label step never moves `state` away from a value other than `""` or
`"deciding"`. -/
lemma applyLabel_state_frozen (i : GitHubIssue) (sw : String × String)
    (lid : Nat) (h1 : sw.1 ≠ "") (h2 : sw.1 ≠ "deciding") :
    (applyLabel i sw lid).1 = sw.1 := by
  rcases applyLabel_spec i sw lid with
      ⟨-, -, heq⟩ | ⟨-, -, heq⟩ | ⟨-, -, heq⟩ | ⟨-, -, heq⟩ | ⟨-, -, heq⟩ |
      ⟨-, -, heq⟩ | ⟨-, -, heq⟩ | ⟨-, -, heq⟩ | ⟨-, -, heq⟩ | ⟨-, heq⟩ <;>
    rw [heq]
  · rw [if_neg (by rintro (h | h); exacts [h1 h, h2 h])]
  · rw [if_neg h1]
  · split_ifs with hc
    · cases i.milestone <;> rfl
    · rfl
  · split_ifs <;> rfl
  · split_ifs <;> rfl
  · split_ifs <;> rfl
  · split_ifs <;> rfl
  · split_ifs <;> rfl

/-- After a label step, `state` is the old value, `"waiting"`, or
`"deciding"`. -/
lemma applyLabel_state_options (i : GitHubIssue) (sw : String × String)
    (lid : Nat) :
    (applyLabel i sw lid).1 = sw.1 ∨ (applyLabel i sw lid).1 = "waiting" ∨
    (applyLabel i sw lid).1 = "deciding" := by
  rcases applyLabel_spec i sw lid with
      ⟨-, -, heq⟩ | ⟨-, -, heq⟩ | ⟨-, -, heq⟩ | ⟨-, -, heq⟩ | ⟨-, -, heq⟩ |
      ⟨-, -, heq⟩ | ⟨-, -, heq⟩ | ⟨-, -, heq⟩ | ⟨-, -, heq⟩ | ⟨-, heq⟩ <;>
    rw [heq]
  · split_ifs with hc
    · exact Or.inr (Or.inl rfl)
    · exact Or.inl rfl
  · split_ifs with hc
    · exact Or.inr (Or.inr rfl)
    · exact Or.inl rfl
  · exact Or.inl rfl
  · split_ifs with hc
    · cases i.milestone <;> exact Or.inl rfl
    · exact Or.inl rfl
  · split_ifs <;> exact Or.inl rfl
  · split_ifs <;> exact Or.inl rfl
  · split_ifs <;> exact Or.inl rfl
  · split_ifs <;> exact Or.inl rfl
  · split_ifs <;> exact Or.inl rfl
  · exact Or.inl rfl

/-- The label pass never moves `state` away from a value other than `""` or
`"deciding"`. -/
lemma foldl_state_frozen (i : GitHubIssue) (ls : List Nat) :
    ∀ sw : String × String, sw.1 ≠ "" → sw.1 ≠ "deciding" →
      (ls.foldl (applyLabel i) sw).1 = sw.1 := by
  induction ls with
  | nil => intro sw _ _; rfl
  | cons l rest ih =>
    intro sw h1 h2
    rw [List.foldl_cons]
    have hstep := applyLabel_state_frozen i sw l h1 h2
    have h1a : (applyLabel i sw l).1 ≠ "" := by rw [hstep]; exact h1
    have h2a : (applyLabel i sw l).1 ≠ "deciding" := by rw [hstep]; exact h2
    rw [ih (applyLabel i sw l) h1a h2a, hstep]

/-- After the label pass, `state` is the initial value, `"waiting"`, or
`"deciding"`. -/
lemma foldl_state_options (i : GitHubIssue) (ls : List Nat) :
    ∀ sw : String × String,
      (ls.foldl (applyLabel i) sw).1 = sw.1 ∨
      (ls.foldl (applyLabel i) sw).1 = "waiting" ∨
      (ls.foldl (applyLabel i) sw).1 = "deciding" := by
  induction ls with
  | nil => intro sw; exact Or.inl rfl
  | cons l rest ih =>
    intro sw
    rw [List.foldl_cons]
    rcases ih (applyLabel i sw l) with h | h | h
    · rcases applyLabel_state_options i sw l with h2 | h2 | h2
      · exact Or.inl (h.trans h2)
      · exact Or.inr (Or.inl (h.trans h2))
      · exact Or.inr (Or.inr (h.trans h2))
    · exact Or.inr (Or.inl h)
    · exact Or.inr (Or.inr h)

/-- C3: label steps only ever move `state` from `""` to a concrete value or
from `"deciding"` to `"waiting"`; the final `state` is one of the six
terminal values; and a closed issue always classifies to `"closed"`. -/
theorem state_machine_invariant (cls : List GerritCL) (i : GitHubIssue) :
    (∀ (s w : String) (lid : Nat),
        (applyLabel i (s, w) lid).1 = s ∨
        (s = "" ∧ (applyLabel i (s, w) lid).1 ≠ "") ∨
        (s = "deciding" ∧ (applyLabel i (s, w) lid).1 = "waiting")) ∧
    (classify cls i).1 ∈
      (["closed", "locked", "waiting", "deciding", "pending", "open"] :
        List String) ∧
    (i.closed = true → (classify cls i).1 = "closed") := by
  refine ⟨fun s w lid => applyLabel_state_trans i s w lid, ?_, ?_⟩
  · rw [classify_fst]
    split_ifs with h hcl
    · simp
    · simp
    · rcases foldl_state_options i i.labels (stateInit i, whenInit i) with
        hh | hh | hh
      · unfold labelPass at h ⊢
        rw [hh] at h ⊢
        simp only [] at h ⊢
        unfold stateInit at h ⊢
        split_ifs at h ⊢ <;> simp_all
      · unfold labelPass at h ⊢
        rw [hh]
        simp
      · unfold labelPass at h ⊢
        rw [hh]
        simp
  · intro hc
    have hsi : stateInit i = "closed" := by simp [stateInit, hc]
    have h1 : ((stateInit i, whenInit i) : String × String).1 ≠ "" := by
      simp [hsi]
    have h2 : ((stateInit i, whenInit i) : String × String).1 ≠ "deciding" := by
      simp [hsi]
    have hf := foldl_state_frozen i i.labels (stateInit i, whenInit i) h1 h2
    rw [classify_fst]
    unfold labelPass
    rw [hf]
    simp [hsi]

/-- Witness for C3 at a concrete closed issue. -/
theorem state_machine_invariant_witness :
    (classify []
      { number := 3, notExist := false, pullRequest := false, closed := true,
        locked := false, milestone := none,
        labels := [waitingForInfoID, soonID], assignees := [],
        updated := "2019-01-01", title := "closed issue" }).1 = "closed" :=
  (state_machine_invariant [] _).2.2 rfl

/-! ### Lemmas about the when component -/

/-- Once `when` is `"soon"`, no label step changes it. -/
lemma applyLabel_soon_sticky (i : GitHubIssue) (sw : String × String)
    (lid : Nat) (h : sw.2 = "soon") : (applyLabel i sw lid).2 = "soon" := by
  rcases applyLabel_spec i sw lid with
      ⟨-, -, heq⟩ | ⟨-, -, heq⟩ | ⟨-, -, heq⟩ | ⟨-, -, heq⟩ | ⟨-, -, heq⟩ |
      ⟨-, -, heq⟩ | ⟨-, -, heq⟩ | ⟨-, -, heq⟩ | ⟨-, -, heq⟩ | ⟨-, heq⟩ <;>
    rw [heq]
  · split_ifs <;> exact h
  · split_ifs <;> exact h
  · split_ifs with hc
    · exfalso; rw [h] at hc; simp at hc
    · exact h
  · split_ifs with hc
    · exfalso; rw [h] at hc; simp at hc
    · exact h
  · split_ifs with hc
    · exfalso; rw [h] at hc; simp at hc
    · exact h
  · split_ifs with hc
    · exfalso; rw [h] at hc; simp at hc
    · exact h
  · split_ifs with hc
    · exfalso; rw [h] at hc; simp at hc
    · exact h
  · split_ifs with hc
    · exfalso; rw [h] at hc; simp at hc
    · exact h
  · exact h

/-- The `soon` label unconditionally sets `when` to `"soon"`. -/
lemma applyLabel_soonID (i : GitHubIssue) (sw : String × String) :
    (applyLabel i sw soonID).2 = "soon" := by
  unfold applyLabel
  rw [if_neg (by decide), if_neg (by decide), if_pos rfl]

/-- The label pass keeps `when = "soon"` once it is set. -/
lemma foldl_soon_sticky (i : GitHubIssue) (ls : List Nat) :
    ∀ sw : String × String, sw.2 = "soon" →
      (ls.foldl (applyLabel i) sw).2 = "soon" := by
  induction ls with
  | nil => intro sw h; exact h
  | cons l rest ih =>
    intro sw h
    rw [List.foldl_cons]
    exact ih (applyLabel i sw l) (applyLabel_soon_sticky i sw l h)

/-- If `soon` occurs anywhere in the label list, the pass ends with
`when = "soon"`. -/
lemma foldl_soon_mem (i : GitHubIssue) (ls : List Nat) :
    soonID ∈ ls → ∀ sw : String × String,
      (ls.foldl (applyLabel i) sw).2 = "soon" := by
  induction ls with
  | nil => intro h; cases h
  | cons l rest ih =>
    intro h sw
    rw [List.foldl_cons]
    by_cases hl : l = soonID
    · subst hl
      exact foldl_soon_sticky i rest (applyLabel i sw soonID)
        (applyLabel_soonID i sw)
    · rcases List.mem_cons.mp h with h1 | h1
      · exact absurd h1.symm hl
      · exact ih h1 (applyLabel i sw l)

/-- C5: any issue carrying both `soon` and `release-blocker`, in either
order and with any other labels, classifies with `when = "soon"`. -/
theorem soon_trumps_releaseBlocker (cls : List GerritCL) (i : GitHubIssue)
    (h1 : soonID ∈ i.labels) (h2 : releaseBlockerID ∈ i.labels) :
    (classify cls i).2 = "soon" := by
  rw [classify_snd]
  exact foldl_soon_mem i i.labels h1 (stateInit i, whenInit i)

/-- Base issue template used by the concrete examples below. -/
def blankIssue : GitHubIssue :=
  { number := 1, notExist := false, pullRequest := false, closed := false,
    locked := false, milestone := none, labels := [], assignees := [],
    updated := "2019-01-01", title := "issue" }

/-- Witness for C5: `release-blocker` before `soon` still yields "soon". -/
theorem soon_trumps_releaseBlocker_witness :
    (classify [] { blankIssue with
      labels := [releaseBlockerID, soonID] }).2 = "soon" :=
  soon_trumps_releaseBlocker []
    { blankIssue with labels := [releaseBlockerID, soonID] }
    (by decide) (by decide)

/-- C6: when `state` is still empty after the closed/locked check and the
label pass, the fallback makes it "pending" exactly on membership in the
change-link index and "open" otherwise; a plain issue (no milestone, no
labels, not closed, not locked) classifies to that fallback with an empty
`when`. -/
theorem finalState_fallback (cls : List GerritCL) (i : GitHubIssue) :
    ((labelPass i (stateInit i, whenInit i)).1 = "" →
      (classify cls i).1 =
        if issueHasCL cls i.number then "pending" else "open") ∧
    (i.closed = false → i.locked = false → i.milestone = none →
      i.labels = [] →
      classify cls i =
        (if issueHasCL cls i.number then "pending" else "open", "")) := by
  constructor
  · intro h
    rw [classify_fst, if_pos h]
  · intro hc hl hm hlab
    have hsi : stateInit i = "" := by simp [stateInit, hc, hl]
    have hwi : whenInit i = "" := by simp [whenInit, hm]
    have hlp : labelPass i (stateInit i, whenInit i) = ("", "") := by
      unfold labelPass
      rw [hlab]
      simp [hsi, hwi]
    refine Prod.ext ?_ ?_
    · rw [classify_fst, hlp]
      simp
    · rw [classify_snd, hlp]

/-- Witness for C6: a plain issue not in the index classifies to
("open", ""). -/
theorem finalState_fallback_witness : classify [] blankIssue = ("open", "") :=
  (finalState_fallback [] blankIssue).2 rfl rfl rfl rfl

/-! ### The priority ladder for when -/

/-- Every label rank is at most 7. -/
lemma labelRank_le (lid : Nat) : labelRank lid ≤ 7 := by
  unfold labelRank
  split_ifs <;> norm_num

/-- With no milestone, a label step moves the canonical `when` value to the
maximum of its rank and the label rank. -/
lemma applyLabel_rank (i : GitHubIssue) (hm : i.milestone = none)
    (sw : String × String) (r : Nat) (hr : r ≤ 7) (hw : sw.2 = rankToWhen r)
    (lid : Nat) :
    (applyLabel i sw lid).2 = rankToWhen (max r (labelRank lid)) := by
  rcases applyLabel_spec i sw lid with
      ⟨-, hk, heq⟩ | ⟨-, hk, heq⟩ | ⟨-, hk, heq⟩ | ⟨-, hk, heq⟩ |
      ⟨-, hk, heq⟩ | ⟨-, hk, heq⟩ | ⟨-, hk, heq⟩ | ⟨-, hk, heq⟩ |
      ⟨-, hk, heq⟩ | ⟨hk, heq⟩ <;>
    rw [heq, hk]
  · rw [Nat.max_zero]
    split_ifs <;> exact hw
  · rw [Nat.max_zero]
    split_ifs <;> exact hw
  · rw [Nat.max_eq_right hr]; rfl
  · interval_cases r <;> simp_all [rankToWhen, hm]
  · interval_cases r <;> simp_all [rankToWhen]
  · interval_cases r <;> simp_all [rankToWhen]
  · interval_cases r <;> simp_all [rankToWhen]
  · interval_cases r <;> simp_all [rankToWhen]
  · interval_cases r <;> simp_all [rankToWhen]
  · rw [Nat.max_zero]
    exact hw

/-- With no milestone, the label pass computes the ladder maximum. -/
lemma foldl_rank (i : GitHubIssue) (hm : i.milestone = none) (ls : List Nat) :
    ∀ (sw : String × String) (r : Nat), r ≤ 7 → sw.2 = rankToWhen r →
      (ls.foldl (applyLabel i) sw).2 =
        rankToWhen (ls.foldl (fun a lid => max a (labelRank lid)) r) := by
  induction ls with
  | nil => intro sw r hr hw; exact hw
  | cons l rest ih =>
    intro sw r hr hw
    rw [List.foldl_cons, List.foldl_cons]
    exact ih (applyLabel i sw l) (max r (labelRank l))
      (max_le hr (labelRank_le l)) (applyLabel_rank i hm sw r hr hw l)

/-- With no milestone, `when` is the ladder value of the highest-ranked
label present. -/
lemma classify_when_none (cls : List GerritCL) (i : GitHubIssue)
    (hm : i.milestone = none) :
    (classify cls i).2 =
      rankToWhen (i.labels.foldl (fun a lid => max a (labelRank lid)) 0) := by
  rw [classify_snd]
  unfold labelPass
  exact foldl_rank i hm i.labels (stateInit i, whenInit i) 0 (by norm_num)
    (by simp [whenInit, hm, rankToWhen])

/-- A milestone-derived `when` default is never one of the values the
lower-tier label cases may overwrite. -/
lemma when_default_blocks (w : String)
    (hmem : w ∈ (["help", "unplanned", "unreleased", "proposal", "go2",
      "gccgo", "gollvm"] : List String)) :
    w ≠ "" ∧ w ≠ "early" ∧ w ≠ "feature" ∧ w ≠ "performance" ∧
      w ≠ "test" ∧ w ≠ "doc" := by
  simp only [List.mem_cons, List.not_mem_nil, or_false] at hmem
  rcases hmem with h | h | h | h | h | h | h <;> subst h <;> decide

/-- The issue used to refute the unrestricted ladder claim: milestone
`unplanned` plus a `documentation` label. -/
def unplannedDocIssue : GitHubIssue :=
  { blankIssue with
    milestone := some ⟨unplannedMilestone, "Unplanned"⟩,
    labels := [documentationID] }

/-- Counterexample to C1 as stated: `documentation` sits above the
milestone-derived default on the claimed ladder, yet it does not overwrite
the milestone-derived `when = "unplanned"`. -/
theorem whenLadder_counterexample :
    documentationID ∈ unplannedDocIssue.labels ∧
    (classify [] unplannedDocIssue).2 = "unplanned" ∧
    "unplanned" ≠ "doc" :=
  ⟨by decide, rfl, by decide⟩

/-- C1 amended: for issues without a milestone the label pass implements
the strict ladder soon > release-blocker > early-in-cycle >
feature-request > performance > testing > documentation > empty (the final
`when` is the value of the highest-ranked label present); a
milestone-derived default `when`, however, is left unchanged by every
label case except `soon`, which always overwrites. -/
theorem whenLadder_amended (cls : List GerritCL) (i : GitHubIssue) :
    (i.milestone = none →
      (classify cls i).2 =
        rankToWhen (i.labels.foldl (fun a lid => max a (labelRank lid)) 0)) ∧
    (∀ (sw : String × String) (lid : Nat),
      sw.2 ∈ (["help", "unplanned", "unreleased", "proposal", "go2",
        "gccgo", "gollvm"] : List String) →
      lid ≠ soonID → (applyLabel i sw lid).2 = sw.2) ∧
    (∀ sw : String × String, (applyLabel i sw soonID).2 = "soon") := by
  refine ⟨fun hm => classify_when_none cls i hm, ?_,
    fun sw => applyLabel_soonID i sw⟩
  intro sw lid hmem hlid
  have hb := when_default_blocks sw.2 hmem
  rcases applyLabel_spec i sw lid with
      ⟨-, -, heq⟩ | ⟨-, -, heq⟩ | ⟨hc, -, -⟩ | ⟨-, -, heq⟩ | ⟨-, -, heq⟩ |
      ⟨-, -, heq⟩ | ⟨-, -, heq⟩ | ⟨-, -, heq⟩ | ⟨-, -, heq⟩ | ⟨-, heq⟩
  · rw [heq]; split_ifs <;> rfl
  · rw [heq]; split_ifs <;> rfl
  · exact absurd hc hlid
  · rw [heq]; split_ifs with hc
    · exact absurd hc (by tauto)
    · rfl
  · rw [heq]; split_ifs with hc
    · exact absurd hc (by tauto)
    · rfl
  · rw [heq]; split_ifs with hc
    · exact absurd hc (by tauto)
    · rfl
  · rw [heq]; split_ifs with hc
    · exact absurd hc (by tauto)
    · rfl
  · rw [heq]; split_ifs with hc
    · exact absurd hc (by tauto)
    · rfl
  · rw [heq]; split_ifs with hc
    · exact absurd hc (by tauto)
    · rfl
  · rw [heq]

/-- Witness for the amended C1 at a concrete label list. -/
theorem whenLadder_amended_witness :
    (classify [] { blankIssue with
      labels := [documentationID, testingID, documentationID] }).2 =
      "test" :=
  ((whenLadder_amended []
    { blankIssue with
      labels := [documentationID, testingID, documentationID] }).1
    rfl).trans (by decide)

/-- C7: with no milestone, `documentation` alone yields "doc"; adding
`testing` in either position yields "test"; and a `documentation` label
applied while `when` is already "test" leaves it "test". -/
theorem documentation_testing_order (cls : List GerritCL) (i : GitHubIssue) :
    (i.milestone = none → i.labels = [documentationID] →
      (classify cls i).2 = "doc") ∧
    (i.milestone = none →
      (i.labels = [documentationID, testingID] ∨
        i.labels = [testingID, documentationID]) →
      (classify cls i).2 = "test") ∧
    (∀ s : String, (applyLabel i (s, "test") documentationID).2 = "test") := by
  refine ⟨?_, ?_, ?_⟩
  · intro hm hl
    rw [classify_when_none cls i hm, hl]
    decide
  · intro hm h
    rcases h with h | h <;> rw [classify_when_none cls i hm, h] <;> decide
  · intro s
    unfold applyLabel
    rw [if_neg (by decide), if_neg (by decide), if_neg (by decide),
      if_neg (by decide), if_neg (by decide), if_neg (by decide),
      if_neg (by decide), if_neg (by decide), if_pos rfl, if_neg (by simp)]

/-- Witness for C7 at the singleton documentation label list. -/
theorem documentation_testing_order_witness :
    (classify [] { blankIssue with labels := [documentationID] }).2 =
      "doc" :=
  (documentation_testing_order []
    { blankIssue with labels := [documentationID] }).1 rfl rfl

/-- Every ladder value is one of the eight label-reachable when values. -/
lemma rankToWhen_mem (r : Nat) :
    rankToWhen r ∈ (["", "soon", "release", "early", "feature",
      "performance", "test", "doc"] : List String) := by
  unfold rankToWhen
  split_ifs <;> simp

/-- C10: with no milestone, the final `when` always lies in the closed
eight-value set; no milestone title or milestone-derived default can
appear. -/
theorem noMilestone_when_set (cls : List GerritCL) (i : GitHubIssue)
    (hm : i.milestone = none) :
    (classify cls i).2 ∈ (["", "soon", "release", "early", "feature",
      "performance", "test", "doc"] : List String) := by
  rw [classify_when_none cls i hm]
  exact rankToWhen_mem _

/-- Witness for C10 at a release-blocker label with no milestone. -/
theorem noMilestone_when_set_witness :
    (classify [] { blankIssue with labels := [releaseBlockerID] }).2 ∈
      (["", "soon", "release", "early", "feature", "performance", "test",
        "doc"] : List String) :=
  noMilestone_when_set [] { blankIssue with labels := [releaseBlockerID] }
    rfl

/-! ### The closed enumeration claim for when -/

/-- The `when` values enumerated by the specification (including empty). -/
def whenEnum : List String :=
  ["", "help", "unplanned", "unreleased", "proposal", "go2", "gccgo",
   "gollvm", "soon", "release", "early", "feature", "performance", "test",
   "doc"]

/-- The milestone switch starts `when` inside the enumeration. -/
lemma whenInit_mem (i : GitHubIssue) : whenInit i ∈ whenEnum := by
  cases hmil : i.milestone with
  | none => simp [whenInit, hmil, whenEnum]
  | some m =>
    simp only [whenInit, hmil]
    split_ifs <;> simp [whenEnum]

/-- A label step keeps `when` inside the enumeration or equal to the
milestone title. -/
lemma applyLabel_whenEnum (i : GitHubIssue) (sw : String × String)
    (lid : Nat)
    (h : sw.2 ∈ whenEnum ∨ ∃ m, i.milestone = some m ∧ sw.2 = m.title) :
    (applyLabel i sw lid).2 ∈ whenEnum ∨
      ∃ m, i.milestone = some m ∧ (applyLabel i sw lid).2 = m.title := by
  rcases applyLabel_spec i sw lid with
      ⟨-, -, heq⟩ | ⟨-, -, heq⟩ | ⟨-, -, heq⟩ | ⟨-, -, heq⟩ | ⟨-, -, heq⟩ |
      ⟨-, -, heq⟩ | ⟨-, -, heq⟩ | ⟨-, -, heq⟩ | ⟨-, -, heq⟩ | ⟨-, heq⟩ <;>
    rw [heq]
  · split_ifs <;> exact h
  · split_ifs <;> exact h
  · exact Or.inl (by simp [whenEnum])
  · split_ifs with hc
    · cases hmil : i.milestone with
      | none => exact Or.inl (by simp [whenEnum])
      | some m => exact Or.inr ⟨m, rfl, rfl⟩
    · exact h
  · split_ifs with hc
    · exact Or.inl (by simp [whenEnum])
    · exact h
  · split_ifs with hc
    · exact Or.inl (by simp [whenEnum])
    · exact h
  · split_ifs with hc
    · exact Or.inl (by simp [whenEnum])
    · exact h
  · split_ifs with hc
    · exact Or.inl (by simp [whenEnum])
    · exact h
  · split_ifs with hc
    · exact Or.inl (by simp [whenEnum])
    · exact h
  · exact h

/-- The label pass keeps `when` inside the enumeration or equal to the
milestone title. -/
lemma foldl_whenEnum (i : GitHubIssue) (ls : List Nat) :
    ∀ sw : String × String,
      (sw.2 ∈ whenEnum ∨ ∃ m, i.milestone = some m ∧ sw.2 = m.title) →
      ((ls.foldl (applyLabel i) sw).2 ∈ whenEnum ∨
        ∃ m, i.milestone = some m ∧
          (ls.foldl (applyLabel i) sw).2 = m.title) := by
  induction ls with
  | nil => intro sw h; exact h
  | cons l rest ih =>
    intro sw h
    rw [List.foldl_cons]
    exact ih (applyLabel i sw l) (applyLabel_whenEnum i sw l h)

/-- The issue used to refute the closed-enumeration claim: an unrecognized
milestone whose title is "Go1.25" plus a release-blocker label. -/
def titledRBIssue : GitHubIssue :=
  { blankIssue with
    milestone := some ⟨99, "Go1.25"⟩,
    labels := [releaseBlockerID] }

/-- Counterexample to C4 as stated: with a milestone present,
`release-blocker` copies the milestone display title into `when`, which
can lie outside the claimed enumeration. -/
theorem when_enum_counterexample :
    (classify [] titledRBIssue).2 = "Go1.25" ∧ "Go1.25" ∉ whenEnum :=
  ⟨rfl, by decide⟩

/-- C4 amended: the `when` component is either in the spec enumeration
(or empty) or equal to the display title of the issue milestone. -/
theorem when_enum_amended (cls : List GerritCL) (i : GitHubIssue) :
    (classify cls i).2 ∈ whenEnum ∨
      ∃ m, i.milestone = some m ∧ (classify cls i).2 = m.title := by
  rw [classify_snd]
  unfold labelPass
  exact foldl_whenEnum i i.labels (stateInit i, whenInit i)
    (Or.inl (whenInit_mem i))

/-- C8: the emitter is a pure function of the snapshot, so two runs over
the same CL list and issue list produce identical record sequences. -/
theorem emitter_deterministic (cls : List GerritCL)
    (issues : List GitHubIssue) : emit cls issues = emit cls issues := rfl

end Goissues
